import Mathlib

/-!
Verification model of the HispaniaBack article/card service (`src/app.js`).

The service is a REST façade over an S3 bucket.  We embed the stored JSON
documents as a `JVal` type, the bucket as an association list from keys to
stored JSON values, and each route handler as a pure function on that state.
External collaborators are abstracted at their boundary exactly as the code
uses them: bcrypt is a pair of oracles (`bcryptHash`, `bcryptCompare`) passed
as parameters, the clock is a `now : String` parameter, and S3 is the
association-list store (get/put/head/delete) plus, for listings, the sequence
of pages the paginated `ListObjectsV2` protocol returns.
-/

namespace HispaniaBack

/-- JSON values, as stored in and parsed from the bucket.  Numbers are
modelled as integers (every number this code writes is an integer version
counter). -/
inductive JVal where
  | jnull
  | jbool (b : Bool)
  | jnum (n : Int)
  | jstr (s : String)
  | jarr (elems : List JVal)
  | jobj (fields : List (String × JVal))
deriving Repr

/-- JavaScript truthiness of a JSON value (`!v` in the source negates this). -/
def truthy : JVal → Bool
  | .jnull => false
  | .jbool b => b
  | .jnum n => n != 0
  | .jstr s => !s.isEmpty
  | .jarr _ => true
  | .jobj _ => true

/-- Truthiness of a possibly-absent value (`undefined` is falsy). -/
def truthyOpt : Option JVal → Bool
  | none => false
  | some v => truthy v

/-- First binding of a key in an association list (JSON objects parsed from
the bucket have unique keys). -/
def lookupField : List (String × JVal) → String → Option JVal
  | [], _ => none
  | (k', v) :: rest, k => if k' = k then some v else lookupField rest k

/-- `o.k` in JavaScript: property access, `none` standing for `undefined`
(also on non-objects, where `.k` is `undefined`). -/
def getField : JVal → String → Option JVal
  | .jobj fields, k => lookupField fields k
  | _, _ => none

/-- Setting a key in an association list: overrides the first occurrence in
place, otherwise appends — the key order produced by a JavaScript object
literal `{...existing, k: v}`. -/
def setFields : List (String × JVal) → String → JVal → List (String × JVal)
  | [], k, v => [(k, v)]
  | (k', v') :: rest, k, v =>
    if k' = k then (k, v) :: rest else (k', v') :: setFields rest k v

/-- `{...o, k: v}` on an object; on a non-object value it is unreachable in
the code paths we model and leaves the value unchanged. -/
def setField (o : JVal) (k : String) (v : JVal) : JVal :=
  match o with
  | .jobj fields => .jobj (setFields fields k v)
  | other => other

/-- Dropping a key from an object: `{...o, k: undefined}` serialises with
`JSON.stringify` to the object without `k`. -/
def delField (o : JVal) (k : String) : JVal :=
  match o with
  | .jobj fields => .jobj (fields.filter (fun p => p.1 ≠ k))
  | other => other

mutual
/-- JavaScript string conversion `String(v)` / template interpolation.
Arrays stringify element-wise joined with commas (`null` elements become
the empty string), objects as `[object Object]`. -/
def jsToString : JVal → String
  | .jnull => "null"
  | .jbool b => if b then "true" else "false"
  | .jnum n => toString n
  | .jstr s => s
  | .jarr elems => String.intercalate "," (jsToStringElems elems)
  | .jobj _ => "[object Object]"

/-- Stringification of array elements (`Array.prototype.join`): `null`
becomes the empty string. -/
def jsToStringElems : List JVal → List String
  | [] => []
  | .jnull :: rest => "" :: jsToStringElems rest
  | v :: rest => jsToString v :: jsToStringElems rest
end

/-! JavaScript string primitives used by the handlers, embedded as
structural functions over the character list of a `String`. -/

/-- `s.trim()`: strips leading and trailing whitespace. -/
def jsTrim (s : String) : String :=
  ⟨((s.data.dropWhile Char.isWhitespace).reverse.dropWhile Char.isWhitespace).reverse⟩

/-- `s.toLowerCase()` (ASCII case folding, which covers every key and
extension this service manipulates). -/
def jsToLower (s : String) : String :=
  ⟨s.data.map Char.toLower⟩

/-- `s.endsWith(suffixStr)`. -/
def jsEndsWith (s suffixStr : String) : Bool :=
  List.isSuffixOf suffixStr.data s.data

/-- Dropping the last `n` characters, as `replace(/…$/, '')` does once the
suffix is known to match. -/
def jsDropRight (s : String) (n : Nat) : String :=
  ⟨s.data.take (s.data.length - n)⟩

/-- `key.split('/')` for the single-character separator the code uses:
`""` splits to `[""]`, separators at the edges produce empty segments. -/
def splitSlashAux : List Char → List Char → List String
  | [], acc => [⟨acc.reverse⟩]
  | c :: rest, acc =>
    if c = '/' then (⟨acc.reverse⟩ : String) :: splitSlashAux rest []
    else splitSlashAux rest (c :: acc)

def jsSplitSlash (s : String) : List String :=
  splitSlashAux s.data []

/-- The bucket: keys to stored JSON documents.  `GetObject` is lookup,
`PutObject` unconditional overwrite, `HeadObject` an existence probe,
`DeleteObject` removal. -/
abbrev Store := List (String × JVal)

def getObject (st : Store) (key : String) : Option JVal :=
  lookupField st key

def putObject (st : Store) (key : String) (v : JVal) : Store :=
  setFields st key v

def headObject (st : Store) (key : String) : Bool :=
  (getObject st key).isSome

def deleteObject (st : Store) (key : String) : Store :=
  st.filter (fun p => p.1 ≠ key)

/-- Outcome of `POST /articles` (`src/app.js` lines 107–154).  `badRequest`
is HTTP 400 for a missing title or invalid password, `conflict` the 400
"ya existe" answer after the `HeadObject` probe, `created` HTTP 201. -/
inductive CreateResult where
  | badRequest
  | conflict
  | created
deriving Repr, DecidableEq

/-- `POST /articles`: validates title and password, probes for an existing
document at `<title>.json`, then writes the envelope
`{article, passwordHash}` (note: no `version` and no `updatedAt` field is
written on create).  `bcryptHash` abstracts `bcrypt.hash(password, 12)`. -/
def createArticle (bcryptHash : String → String) (st : Store)
    (articleJSON? : Option JVal) (rawPassword? : Option JVal) :
    CreateResult × Store :=
  match articleJSON? with
  | none => (.badRequest, st)
  | some a =>
    if !truthy a || !truthyOpt (getField a "title") then (.badRequest, st)
    else
      match rawPassword? with
      | none => (.badRequest, st)
      | some .jnull => (.badRequest, st)
      | some pwv =>
        let password := jsToString pwv
        if (jsTrim password).length < 4 then (.badRequest, st)
        else
          let fileKey := jsToString ((getField a "title").getD .jnull) ++ ".json"
          if headObject st fileKey then (.conflict, st)
          else
            let payload : JVal :=
              .jobj [("article", a), ("passwordHash", .jstr (bcryptHash password))]
            (.created, putObject st fileKey payload)

/-- Outcome of `GET /articles/:id` (`src/app.js` lines 90–104). -/
inductive ReadResult where
  | notFound
  | ok (body : JVal)
deriving Repr

/-- `GET /articles/:id`: fetches `<id>.json` and answers
`parsed.article || parsed` — the envelope's content when the `article` field
is present and truthy, otherwise the parsed object itself (legacy bare
blobs have no `article` field and are returned as-is). -/
def readArticle (st : Store) (id : String) : ReadResult :=
  match getObject st (id ++ ".json") with
  | none => .notFound
  | some parsed =>
    .ok (match getField parsed "article" with
         | some v => if truthy v then v else parsed
         | none => parsed)

/-- Outcome of `PUT /articles/:id` (`src/app.js` lines 158–203).
`needsMigration` is the 409 "migrelo primero" answer, `forbidden` 403. -/
inductive UpdateResult where
  | badRequest
  | notFound
  | needsMigration
  | forbidden
  | updated
deriving Repr, DecidableEq

/-- `PUT /articles/:id`: requires a password, fetches the stored document,
refuses documents without a string `passwordHash` (409), verifies the
password with `bcrypt.compare`, and on success writes back
`{...existing, article: articleJSON || existing.article,
updatedAt: now, version: (existing.version || 1) + 1}`.
The `_ => 1` arm of the version computation also covers the falsy
non-number values (`"" || 1`, `null || 1`, `false || 1` are `1`); a truthy
non-number `version` never occurs in a document this code writes (create
writes none, update writes a number). -/
def updateArticle (bcryptCompare : String → String → Bool) (now : String)
    (st : Store) (id : String) (rawPassword? : Option JVal)
    (articleJSON? : Option JVal) : UpdateResult × Store :=
  match rawPassword? with
  | none => (.badRequest, st)
  | some .jnull => (.badRequest, st)
  | some pwv =>
    let password := jsToString pwv
    let fileKey := id ++ ".json"
    match getObject st fileKey with
    | none => (.notFound, st)
    | some existing =>
      match getField existing "passwordHash" with
      | some (.jstr h) =>
        if h.isEmpty then (.needsMigration, st)
        else if bcryptCompare password h then
          let newArticle? : Option JVal :=
            match articleJSON? with
            | some a => if truthy a then some a else getField existing "article"
            | none => getField existing "article"
          let p1 := match newArticle? with
            | some v => setField existing "article" v
            | none => delField existing "article"
          let p2 := setField p1 "updatedAt" (.jstr now)
          let oldVersion : Int :=
            match getField existing "version" with
            | some (.jnum n) => if n = 0 then 1 else n
            | _ => 1
          let p3 := setField p2 "version" (.jnum (oldVersion + 1))
          (.updated, putObject st fileKey p3)
        else (.forbidden, st)
      | _ => (.needsMigration, st)

/-- Outcome of `DELETE /articles/:id` (`src/app.js` lines 208–243). -/
inductive DeleteResult where
  | badRequest
  | notFound
  | needsMigration
  | forbidden
  | deleted
deriving Repr, DecidableEq

/-- `DELETE /articles/:id`: the same fetch / needs-migration / password
verification sequence as update; on success deletes the key. -/
def deleteArticle (bcryptCompare : String → String → Bool) (st : Store)
    (id : String) (rawPassword? : Option JVal) : DeleteResult × Store :=
  match rawPassword? with
  | none => (.badRequest, st)
  | some .jnull => (.badRequest, st)
  | some pwv =>
    let password := jsToString pwv
    let fileKey := id ++ ".json"
    match getObject st fileKey with
    | none => (.notFound, st)
    | some existing =>
      match getField existing "passwordHash" with
      | some (.jstr h) =>
        if h.isEmpty then (.needsMigration, st)
        else if bcryptCompare password h then
          (.deleted, deleteObject st fileKey)
        else (.forbidden, st)
      | _ => (.needsMigration, st)

/-! ### Cards and decks -/

/-- `isCardKey` (`src/app.js` lines 286–288): a key is a card key iff its
lowercase form ends in `.svg` or `.png`. -/
def isCardKey (key : String) : Bool :=
  jsEndsWith (jsToLower key) ".svg" || jsEndsWith (jsToLower key) ".png"

/-- `file.replace(/\.svg$/i, '')` (`src/app.js` line 310): strips one
case-insensitive `.svg` suffix from the end; any other ending — including
`.png` — is left untouched. -/
def stripSvgSuffix (file : String) : String :=
  if jsEndsWith (jsToLower file) ".svg" then jsDropRight file 4 else file

/-- The unsigned direct-access URL built for a card
(`src/app.js` line 312). -/
def cardUrl (region bucket key : String) : String :=
  "https://" ++ bucket ++ ".s3." ++ region ++ ".amazonaws.com/" ++ key

/-- `const [title, file] = key.split('/')`: the first two segments of the
key split at `/` (`none` when there is no separator at all). -/
def splitKeyFirst (key : String) : Option (String × String) :=
  match jsSplitSlash key with
  | t :: f :: _ => some (t, f)
  | _ => none

/-- One key's contribution to `GET /cards` (`src/app.js` lines 299–315):
non-card keys are filtered out, keys without both a deck segment and a file
segment are skipped (`if (!title || !file) return`), and a surviving key
contributes `(deckTitle, name, url)` where the name is the file segment
with only a `.svg` suffix stripped. -/
def cardEntry (region bucket key : String) : Option (String × String × String) :=
  if isCardKey key then
    match splitKeyFirst key with
    | some (t, f) =>
      if t.isEmpty || f.isEmpty then none
      else some (t, stripSvgSuffix f, cardUrl region bucket key)
    | none => none
  else none

/-- Appending a card to its deck in the accumulated deck map, preserving
first-seen order of deck titles (`(decksMap[title] ||= []).push(...)`). -/
def insertCard (decks : List (String × List (String × String)))
    (t : String) (card : String × String) :
    List (String × List (String × String)) :=
  match decks with
  | [] => [(t, [card])]
  | (t', cs) :: rest =>
    if t' = t then (t', cs ++ [card]) :: rest
    else (t', cs) :: insertCard rest t card

/-- `GET /cards`: folds every listed key through `cardEntry`, grouping the
surviving cards by deck title. -/
def listAllDecks (region bucket : String) (keys : List String) :
    List (String × List (String × String)) :=
  keys.foldl (fun acc key =>
    match cardEntry region bucket key with
    | some (t, n, u) => insertCard acc t (n, u)
    | none => acc) []

/-- `listCardKeys` (`src/app.js` lines 349–371): the continuation-token
loop issues one `ListObjectsV2` call per page and keeps looping while the
response is truncated, so it consumes every page the backend returns for
the prefix; each page's contents are filtered to card keys and appended.
`pages` is the sequence of `Contents` key lists those successive calls
return. -/
def listCardKeys : List (List String) → List String
  | [] => []
  | page :: rest => page.filter isCardKey ++ listCardKeys rest

/-- The batching loop of `deleteKeys` (`src/app.js` lines 375–378):
`keys.slice(i, i + 1000)` for `i = 0, 1000, 2000, …`. -/
def chunk1000 : List String → List (List String)
  | [] => []
  | key :: rest => ((key :: rest).take 1000) :: chunk1000 ((key :: rest).drop 1000)
termination_by l => l.length
decreasing_by simp [List.length_drop]; omega

/-- `deleteKeys` (`src/app.js` lines 374–394): issues one
`DeleteObjectsCommand` per 1000-key batch and returns `keys.length` as the
reported deletion count.  The first component is the list of issued
batches. -/
def deleteKeys (keys : List String) : List (List String) × Nat :=
  (chunk1000 keys, keys.length)

/-- Outcome of `DELETE /cards/:title` and `DELETE /cards`
(`src/app.js` lines 397–433). -/
inductive DeleteDeckResult where
  | notFound
  | deletedCount (n : Nat)
deriving Repr, DecidableEq

/-- The shared body of `DELETE /cards/:title` and `DELETE /cards`: list the
card keys (over all pages for the prefix — `title + "/"` for one deck, the
empty prefix for all decks), answer 404 when none matched, otherwise
batch-delete and report the count.  Also returns the issued batches. -/
def deleteCards (pages : List (List String)) :
    DeleteDeckResult × List (List String) :=
  let keys := listCardKeys pages
  if keys.isEmpty then (.notFound, [])
  else (.deletedCount (deleteKeys keys).2, (deleteKeys keys).1)

/-- One entry of the `POST /cards` body's `cards` array
(`src/app.js` line 445): the three destructured properties, `none` when
absent. -/
structure CardUpload where
  name : Option JVal
  svgBase64 : Option JVal
  pngBase64 : Option JVal
deriving Repr

/-- JavaScript `x || y` on possibly-absent values. -/
def jsOrOpt (x y : Option JVal) : Option JVal :=
  match x with
  | some a => if truthy a then some a else y
  | none => y

/-- The validity check of one card (`src/app.js` lines 448–451):
`base64 = svgBase64 || pngBase64; if (!name || !base64) throw`. -/
def validCard (c : CardUpload) : Bool :=
  truthyOpt c.name && truthyOpt (jsOrOpt c.svgBase64 c.pngBase64)

/-- The `PutObjectCommand` a valid card produces
(`src/app.js` lines 453–467): `pngBase64` being present (truthy) decides
extension `png` and MIME `image/png`, otherwise `svg` / `image/svg+xml`;
the body is decoded from `svgBase64 || pngBase64`, so when both are
present the svg field supplies the bytes.  `bodyBase64` is the base64 text
handed to `Buffer.from(·, 'base64')`. -/
structure PutSpec where
  key : String
  contentType : String
  bodyBase64 : String
deriving Repr, DecidableEq

def cardPut (title : String) (c : CardUpload) : PutSpec :=
  let base64 := jsOrOpt c.svgBase64 c.pngBase64
  let isPng := truthyOpt c.pngBase64
  let ext := if isPng then "png" else "svg"
  let mime := if isPng then "image/png" else "image/svg+xml"
  { key := title ++ "/" ++ jsToString (c.name.getD .jnull) ++ "." ++ ext
    contentType := mime
    bodyBase64 := jsToString (base64.getD .jnull) }

/-- The first invalid card's error, if any: every map callback runs
synchronously in index order, so the rejection `Promise.all` propagates is
the lowest offending index's
`new Error('Falta nombre o imagen en el índice ' + idx)`. -/
def findCardError (idx : Nat) : List CardUpload → Option String
  | [] => none
  | c :: rest =>
    if !validCard c then
      some ("Falta nombre o imagen en el índice " ++ toString idx)
    else findCardError (idx + 1) rest

/-- Outcome of `POST /cards` (`src/app.js` lines 435–476).  `badRequest` is
the 400 for a missing title or non-array cards; `internalError` is the
catch-all 500 whose response body is the generic
"Error al subir las cartas" while the thrown message (carrying the index)
is only logged; `created` is 201. -/
inductive UploadResult where
  | badRequest
  | internalError (logged : String)
  | created
deriving Repr, DecidableEq

/-- `POST /cards`: validates title and cards array, then uploads all cards
concurrently; a single invalid card rejects the whole batch into the
generic 500 handler.  The second component lists the `PutObjectCommand`s
issued: on failure the valid cards' uploads have all been started (the
rejection does not cancel or roll them back), on success every card's. -/
def uploadCards (title? : Option JVal) (cards? : Option (List CardUpload)) :
    UploadResult × List PutSpec :=
  match title?, cards? with
  | some t, some cards =>
    if !truthy t then (.badRequest, [])
    else
      match findCardError 0 cards with
      | some msg =>
        (.internalError msg, (cards.filter validCard).map (cardPut (jsToString t)))
      | none => (.created, cards.map (cardPut (jsToString t)))
  | _, _ => (.badRequest, [])

/-! ### Association-list and object-field lemmas -/

theorem lookup_setFields_self (fs : List (String × JVal)) (k : String) (v : JVal) :
    lookupField (setFields fs k v) k = some v := by
  induction fs with
  | nil => simp [setFields, lookupField]
  | cons p rest ih =>
    by_cases hk : p.1 = k
    · simp [setFields, hk, lookupField]
    · simp [setFields, hk, lookupField, ih]

theorem lookup_setFields_ne (fs : List (String × JVal)) (k k' : String) (v : JVal)
    (h : k' ≠ k) : lookupField (setFields fs k v) k' = lookupField fs k' := by
  induction fs with
  | nil => simp [setFields, lookupField, Ne.symm h]
  | cons p rest ih =>
    obtain ⟨pk, pv⟩ := p
    by_cases hk : pk = k
    · simp [setFields, hk, lookupField, Ne.symm h]
    · simp [setFields, hk, lookupField, ih]

theorem getField_jobj (fs : List (String × JVal)) (k : String) :
    getField (.jobj fs) k = lookupField fs k := rfl

theorem getField_some_jobj {o : JVal} {k : String} {v : JVal}
    (h : getField o k = some v) : ∃ fs, o = .jobj fs := by
  cases o <;> simp [getField] at h ⊢

theorem setField_jobj (fs : List (String × JVal)) (k : String) (v : JVal) :
    setField (.jobj fs) k v = .jobj (setFields fs k v) := rfl

theorem getField_setField_self (fs : List (String × JVal)) (k : String) (v : JVal) :
    getField (setField (.jobj fs) k v) k = some v := by
  simp [setField_jobj, getField_jobj, lookup_setFields_self]

theorem getField_setField_ne (fs : List (String × JVal)) (k k' : String) (v : JVal)
    (h : k' ≠ k) :
    getField (setField (.jobj fs) k v) k' = getField (.jobj fs) k' := by
  simp [setField_jobj, getField_jobj, lookup_setFields_ne _ _ _ _ h]

theorem getObject_putObject_self (st : Store) (k : String) (v : JVal) :
    getObject (putObject st k v) k = some v :=
  lookup_setFields_self st k v

/-! ### Pagination and batching lemmas -/

theorem listCardKeys_eq_filter_flatten (pages : List (List String)) :
    listCardKeys pages = pages.flatten.filter isCardKey := by
  induction pages with
  | nil => simp [listCardKeys]
  | cons page rest ih => simp [listCardKeys, List.filter_append, ih]

theorem mem_listCardKeys (pages : List (List String)) (k : String) :
    k ∈ listCardKeys pages ↔ k ∈ pages.flatten ∧ isCardKey k = true := by
  simp only [listCardKeys_eq_filter_flatten, List.mem_filter]

theorem chunk1000_flatten (l : List String) : (chunk1000 l).flatten = l := by
  induction l using chunk1000.induct with
  | case1 => simp [chunk1000]
  | case2 key rest ih =>
    rw [chunk1000]
    simp only [List.flatten_cons]
    rw [ih, List.take_append_drop]

theorem chunk1000_mem_length_le (l : List String) (b : List String)
    (hb : b ∈ chunk1000 l) : b.length ≤ 1000 := by
  induction l using chunk1000.induct generalizing b with
  | case1 => simp [chunk1000] at hb
  | case2 key rest ih =>
    rw [chunk1000] at hb
    rcases List.mem_cons.mp hb with h | h
    · subst h; simp [List.length_take]
    · exact ih _ h

theorem chunk1000_nil_iff (l : List String) : chunk1000 l = [] ↔ l = [] := by
  cases l with
  | nil => simp [chunk1000]
  | cons x xs => rw [chunk1000]; simp

theorem chunk1000_two_batches (l : List String) (h : 1000 < l.length) :
    1 < (chunk1000 l).length := by
  cases l with
  | nil => simp at h
  | cons x xs =>
    rw [chunk1000]
    have hne : (x :: xs).drop 1000 ≠ [] := by
      intro hh
      rw [List.drop_eq_nil_iff] at hh
      omega
    have hchunk : chunk1000 ((x :: xs).drop 1000) ≠ [] := by
      simpa [chunk1000_nil_iff] using hne
    cases hc : chunk1000 ((x :: xs).drop 1000) with
    | nil => exact absurd hc hchunk
    | cons b bs => simp [hc]

/-! ### Claim theorems -/

/-- C6: for every id at which a document already exists, a create request
(with well-formed title and password, which the handler validates before
the existence probe) answers `Conflict` and leaves the store untouched —
the `HeadObject` probe precedes the write and the conflict branch returns
without issuing a `PutObject`. -/
theorem create_conflict_never_overwrites
    (bcryptHash : String → String) (st : Store) (a t existing : JVal)
    (pw : String)
    (ha : truthy a = true)
    (ht : getField a "title" = some t)
    (htt : truthy t = true)
    (hpw : ¬ (jsTrim pw).length < 4)
    (hex : getObject st (jsToString t ++ ".json") = some existing) :
    createArticle bcryptHash st (some a) (some (.jstr pw)) = (.conflict, st) := by
  simp [createArticle, ha, ht, truthyOpt, htt, hpw, jsToString, headObject, hex]

/-- Witness for C6 at a concrete store holding `Dragon.json`. -/
theorem create_conflict_never_overwrites_witness :
    createArticle (fun pw => "hash:" ++ pw)
      [("Dragon.json", .jobj [("article", .jnum 1)])]
      (some (.jobj [("title", .jstr "Dragon")])) (some (.jstr "1234"))
    = (.conflict, [("Dragon.json", .jobj [("article", .jnum 1)])]) :=
  create_conflict_never_overwrites _ _ _ _ _ _
    rfl rfl rfl (by decide) rfl

/-- Fields of the envelope `{...existing, article: x, updatedAt: now,
version: nv}` written back by a successful update. -/
theorem update_payload_fields (fs : List (String × JVal)) (x : JVal)
    (now : String) (nv : Int) :
    getField (setField (setField (setField (.jobj fs) "article" x)
        "updatedAt" (.jstr now)) "version" (.jnum nv)) "version"
      = some (.jnum nv)
    ∧ getField (setField (setField (setField (.jobj fs) "article" x)
        "updatedAt" (.jstr now)) "version" (.jnum nv)) "updatedAt"
      = some (.jstr now)
    ∧ getField (setField (setField (setField (.jobj fs) "article" x)
        "updatedAt" (.jstr now)) "version" (.jnum nv)) "article"
      = some x
    ∧ getField (setField (setField (setField (.jobj fs) "article" x)
        "updatedAt" (.jstr now)) "version" (.jnum nv)) "passwordHash"
      = getField (.jobj fs) "passwordHash" := by
  rw [setField_jobj, setField_jobj, setField_jobj]
  refine ⟨lookup_setFields_self _ _ _, ?_, ?_, ?_⟩
  · rw [getField_jobj, lookup_setFields_ne _ _ _ _ (by decide),
      lookup_setFields_self]
  · rw [getField_jobj, lookup_setFields_ne _ _ _ _ (by decide),
      lookup_setFields_ne _ _ _ _ (by decide), lookup_setFields_self]
  · rw [getField_jobj, lookup_setFields_ne _ _ _ _ (by decide),
      lookup_setFields_ne _ _ _ _ (by decide),
      lookup_setFields_ne _ _ _ _ (by decide)]
    rfl

/-- C1: updating a stored article that has a credential hash, with the
correct secret, succeeds and writes back an envelope whose version is the
old version plus one, whose credential hash is unchanged, whose
`updatedAt` is set to the current time, and whose content is the supplied
new content (when one is supplied) and the existing content otherwise. -/
theorem update_correct_secret_increments_version
    (bcryptCompare : String → String → Bool) (now : String) (st : Store)
    (id pw h : String) (existing c : JVal) (v : Int)
    (newContent? : Option JVal)
    (hget : getObject st (id ++ ".json") = some existing)
    (hhash : getField existing "passwordHash" = some (.jstr h))
    (hne : h.isEmpty = false)
    (hcmp : bcryptCompare pw h = true)
    (hver : getField existing "version" = some (.jnum v))
    (hv : v ≠ 0)
    (hart : getField existing "article" = some c) :
    (updateArticle bcryptCompare now st id (some (.jstr pw)) newContent?).1
      = .updated
    ∧ ∃ payload,
        getObject
            (updateArticle bcryptCompare now st id (some (.jstr pw)) newContent?).2
            (id ++ ".json") = some payload
        ∧ getField payload "version" = some (.jnum (v + 1))
        ∧ getField payload "passwordHash" = some (.jstr h)
        ∧ getField payload "updatedAt" = some (.jstr now)
        ∧ (∀ a, newContent? = some a → truthy a = true →
            getField payload "article" = some a)
        ∧ (newContent? = none → getField payload "article" = some c) := by
  obtain ⟨fs, rfl⟩ := getField_some_jobj hhash
  cases newContent? with
  | none =>
    have hred : updateArticle bcryptCompare now st id (some (.jstr pw)) none
        = (.updated, putObject st (id ++ ".json")
            (setField (setField (setField (.jobj fs) "article" c)
              "updatedAt" (.jstr now)) "version" (.jnum (v + 1)))) := by
      simp only [updateArticle, jsToString, hget, hhash, hne, hcmp, hver, hart]
      simp [hv]
    obtain ⟨h1, h2, h3, h4⟩ := update_payload_fields fs c now (v + 1)
    rw [hred]
    exact ⟨rfl, _, getObject_putObject_self _ _ _, h1, h4.trans hhash, h2,
      fun a ha => by simp at ha, fun _ => h3⟩
  | some a =>
    by_cases hta : truthy a = true
    · have hred : updateArticle bcryptCompare now st id (some (.jstr pw)) (some a)
          = (.updated, putObject st (id ++ ".json")
              (setField (setField (setField (.jobj fs) "article" a)
                "updatedAt" (.jstr now)) "version" (.jnum (v + 1)))) := by
        simp only [updateArticle, jsToString, hget, hhash, hne, hcmp, hver, hta]
        simp [hv]
      obtain ⟨h1, h2, h3, h4⟩ := update_payload_fields fs a now (v + 1)
      rw [hred]
      refine ⟨rfl, _, getObject_putObject_self _ _ _, h1, h4.trans hhash, h2,
        ?_, fun hno => by simp at hno⟩
      intro a' ha' _
      obtain rfl : a = a' := by injection ha'
      exact h3
    · have hred : updateArticle bcryptCompare now st id (some (.jstr pw)) (some a)
          = (.updated, putObject st (id ++ ".json")
              (setField (setField (setField (.jobj fs) "article" c)
                "updatedAt" (.jstr now)) "version" (.jnum (v + 1)))) := by
        simp only [updateArticle, jsToString, hget, hhash, hne, hcmp, hver, hta,
          hart]
        simp [hv, hta]
      obtain ⟨h1, h2, h3, h4⟩ := update_payload_fields fs c now (v + 1)
      rw [hred]
      refine ⟨rfl, _, getObject_putObject_self _ _ _, h1, h4.trans hhash, h2,
        ?_, fun hno => by simp at hno⟩
      intro a' ha' hta'
      obtain rfl : a = a' := by injection ha'
      exact absurd hta' hta

/-- Witness for C1: a stored article at version 3 updated with the correct
secret moves to version 4, keeps its hash, gains `updatedAt`, and takes
the supplied content. -/
theorem update_correct_secret_increments_version_witness :
    (updateArticle (fun p hh => hh == "H" ++ p) "2024-01-01"
        [("a.json", .jobj [("article", .jnum 5),
          ("passwordHash", .jstr "H1234"), ("version", .jnum 3)])]
        "a" (some (.jstr "1234")) (some (.jnum 7))).1 = .updated
    ∧ ∃ payload,
        getObject
            (updateArticle (fun p hh => hh == "H" ++ p) "2024-01-01"
              [("a.json", .jobj [("article", .jnum 5),
                ("passwordHash", .jstr "H1234"), ("version", .jnum 3)])]
              "a" (some (.jstr "1234")) (some (.jnum 7))).2
            ("a" ++ ".json") = some payload
        ∧ getField payload "version" = some (.jnum (3 + 1))
        ∧ getField payload "passwordHash" = some (.jstr "H1234")
        ∧ getField payload "updatedAt" = some (.jstr "2024-01-01")
        ∧ (∀ a, (some (JVal.jnum 7) : Option JVal) = some a → truthy a = true →
            getField payload "article" = some a)
        ∧ ((some (JVal.jnum 7) : Option JVal) = none →
            getField payload "article" = some (.jnum 5)) :=
  update_correct_secret_increments_version
    (fun p hh => hh == "H" ++ p) "2024-01-01" _ "a" "1234" "H1234"
    _ (.jnum 5) 3 (some (.jnum 7))
    rfl rfl rfl (by decide) rfl (by decide) rfl

/-- C3: for a stored article with a credential hash, update and delete
requests whose secret fails the bcrypt comparison answer `Forbidden` and
return before any `PutObject` or `DeleteObject`, so the store is exactly
the input store. -/
theorem wrong_secret_forbidden_never_mutates
    (bcryptCompare : String → String → Bool) (now : String) (st : Store)
    (id pw h : String) (existing : JVal) (newContent? : Option JVal)
    (hget : getObject st (id ++ ".json") = some existing)
    (hhash : getField existing "passwordHash" = some (.jstr h))
    (hne : h.isEmpty = false)
    (hcmp : bcryptCompare pw h = false) :
    updateArticle bcryptCompare now st id (some (.jstr pw)) newContent?
      = (.forbidden, st)
    ∧ deleteArticle bcryptCompare st id (some (.jstr pw))
      = (.forbidden, st) := by
  constructor
  · simp only [updateArticle, jsToString, hget, hhash, hne, hcmp]
    simp
  · simp only [deleteArticle, jsToString, hget, hhash, hne, hcmp]
    simp

/-- Witness for C3 at a concrete store and the wrong secret. -/
theorem wrong_secret_forbidden_never_mutates_witness :
    updateArticle (fun p hh => hh == "H" ++ p) "2024-01-01"
        [("a.json", .jobj [("article", .jnum 5),
          ("passwordHash", .jstr "H1234"), ("version", .jnum 3)])]
        "a" (some (.jstr "wrong")) (some (.jnum 7))
      = (.forbidden,
          [("a.json", .jobj [("article", .jnum 5),
            ("passwordHash", .jstr "H1234"), ("version", .jnum 3)])])
    ∧ deleteArticle (fun p hh => hh == "H" ++ p)
        [("a.json", .jobj [("article", .jnum 5),
          ("passwordHash", .jstr "H1234"), ("version", .jnum 3)])]
        "a" (some (.jstr "wrong"))
      = (.forbidden,
          [("a.json", .jobj [("article", .jnum 5),
            ("passwordHash", .jstr "H1234"), ("version", .jnum 3)])]) :=
  wrong_secret_forbidden_never_mutates
    (fun p hh => hh == "H" ++ p) "2024-01-01" _ "a" "wrong" "H1234"
    _ (some (.jnum 7)) rfl rfl rfl (by decide)

/-- C4: update and delete on a stored document without a `passwordHash`
field (a legacy, credential-less document — note a bare legacy content
blob also has no such field) answer the distinct 409 needs-migration
result and return before any write or delete; they never succeed and never
answer `Forbidden`. -/
theorem legacy_document_needs_migration
    (bcryptCompare : String → String → Bool) (now : String) (st : Store)
    (id pw : String) (existing : JVal) (newContent? : Option JVal)
    (hget : getObject st (id ++ ".json") = some existing)
    (hhash : getField existing "passwordHash" = none) :
    updateArticle bcryptCompare now st id (some (.jstr pw)) newContent?
      = (.needsMigration, st)
    ∧ deleteArticle bcryptCompare st id (some (.jstr pw))
      = (.needsMigration, st) := by
  constructor
  · simp only [updateArticle, jsToString, hget, hhash]
  · simp only [deleteArticle, jsToString, hget, hhash]

/-- Witness for C4 on a legacy document stored without an envelope. -/
theorem legacy_document_needs_migration_witness :
    updateArticle (fun p hh => hh == "H" ++ p) "2024-01-01"
        [("a.json", .jobj [("title", .jstr "a"), ("text", .jstr "hola")])]
        "a" (some (.jstr "1234")) none
      = (.needsMigration,
          [("a.json", .jobj [("title", .jstr "a"), ("text", .jstr "hola")])])
    ∧ deleteArticle (fun p hh => hh == "H" ++ p)
        [("a.json", .jobj [("title", .jstr "a"), ("text", .jstr "hola")])]
        "a" (some (.jstr "1234"))
      = (.needsMigration,
          [("a.json", .jobj [("title", .jstr "a"), ("text", .jstr "hola")])]) :=
  legacy_document_needs_migration
    (fun p hh => hh == "H" ++ p) "2024-01-01" _ "a" "1234" _ none rfl rfl

/-- C5: read returns only the logical content, never the credential hash:
a wrapped envelope (truthy `article` field, as every envelope this service
writes has) yields exactly its content field, a legacy bare blob (no
`article` field) is returned as-is, and a create followed by a read of the
same id returns the caller's content unchanged — the envelope, and with it
`passwordHash`, is never part of the response. -/
theorem read_returns_content_never_hash :
    (∀ (st : Store) (id : String) (parsed c : JVal),
      getObject st (id ++ ".json") = some parsed →
      getField parsed "article" = some c → truthy c = true →
      readArticle st id = .ok c)
    ∧ (∀ (st : Store) (id : String) (parsed : JVal),
      getObject st (id ++ ".json") = some parsed →
      getField parsed "article" = none →
      readArticle st id = .ok parsed)
    ∧ (∀ (bcryptHash : String → String) (st : Store) (a t : JVal)
        (pw : String),
      truthy a = true → getField a "title" = some t → truthy t = true →
      ¬ (jsTrim pw).length < 4 →
      getObject st (jsToString t ++ ".json") = none →
      readArticle (createArticle bcryptHash st (some a) (some (.jstr pw))).2
        (jsToString t) = .ok a) := by
  refine ⟨?_, ?_, ?_⟩
  · intro st id parsed c hget hart htc
    simp [readArticle, hget, hart, htc]
  · intro st id parsed hget hart
    simp [readArticle, hget, hart]
  · intro bcryptHash st a t pw ha ht htt hpw habs
    have hred : (createArticle bcryptHash st (some a) (some (.jstr pw))).2
        = putObject st (jsToString t ++ ".json")
            (.jobj [("article", a),
              ("passwordHash", .jstr (bcryptHash pw))]) := by
      simp [createArticle, ha, ht, truthyOpt, htt, jsToString, hpw,
        headObject, habs]
    rw [hred]
    simp [readArticle, getObject_putObject_self, getField, lookupField, ha]

/-- Witness for C5: the three read shapes at concrete stores — an
envelope, a legacy blob, and a create-then-read round trip. -/
theorem read_returns_content_never_hash_witness :
    readArticle [("a.json", .jobj [("article", .jnum 5),
        ("passwordHash", .jstr "H")])] "a" = .ok (.jnum 5)
    ∧ readArticle [("b.json", .jobj [("title", .jstr "b")])] "b"
        = .ok (.jobj [("title", .jstr "b")])
    ∧ readArticle
        (createArticle (fun p => "H" ++ p) []
          (some (.jobj [("title", .jstr "Dragon")]))
          (some (.jstr "1234"))).2
        (jsToString (.jstr "Dragon"))
        = .ok (.jobj [("title", .jstr "Dragon")]) :=
  ⟨read_returns_content_never_hash.1 _ "a" _ _ rfl rfl rfl,
   read_returns_content_never_hash.2.1 _ "b" _ rfl rfl,
   read_returns_content_never_hash.2.2 (fun p => "H" ++ p) [] _ _ "1234"
     rfl rfl rfl (by decide) rfl⟩

/-- C2 counterexample: a successful create stores an envelope with NO
`version` field at all — in particular its `version` is not `1` as the
claim states (the counter only materialises on the first update). -/
theorem create_writes_no_version_field :
    (createArticle (fun p => "H" ++ p) []
        (some (.jobj [("title", .jstr "Dragon")])) (some (.jstr "1234"))).1
      = .created
    ∧ getField
        ((getObject (createArticle (fun p => "H" ++ p) []
            (some (.jobj [("title", .jstr "Dragon")]))
            (some (.jstr "1234"))).2 "Dragon.json").getD .jnull)
        "version" = none
    ∧ getField
        ((getObject (createArticle (fun p => "H" ++ p) []
            (some (.jobj [("title", .jstr "Dragon")]))
            (some (.jstr "1234"))).2 "Dragon.json").getD .jnull)
        "version" ≠ some (.jnum 1) := by
  refine ⟨rfl, rfl, ?_⟩
  intro hcontra
  rw [(rfl : getField
        ((getObject (createArticle (fun p => "H" ++ p) []
            (some (.jobj [("title", .jstr "Dragon")]))
            (some (.jstr "1234"))).2 "Dragon.json").getD .jnull)
        "version" = none)] at hcontra
  exact Option.noConfusion hcontra

/-- C2 (amended): a valid create writes the envelope
`{article, passwordHash}` — the content and a credential hash computed from
the secret — and signals creation; no `version` field (and no `updatedAt`)
is written, the version being implicitly 1: the first successful update of
the fresh envelope writes `version = 2`. -/
theorem create_success_envelope
    (bcryptHash : String → String) (bcryptCompare : String → String → Bool)
    (now : String) (st : Store) (a t : JVal) (pw : String)
    (ha : truthy a = true)
    (ht : getField a "title" = some t)
    (htt : truthy t = true)
    (hpw : ¬ (jsTrim pw).length < 4)
    (habs : getObject st (jsToString t ++ ".json") = none)
    (hhne : (bcryptHash pw).isEmpty = false)
    (hcmp : bcryptCompare pw (bcryptHash pw) = true) :
    createArticle bcryptHash st (some a) (some (.jstr pw))
      = (.created, putObject st (jsToString t ++ ".json")
          (.jobj [("article", a), ("passwordHash", .jstr (bcryptHash pw))]))
    ∧ getField (.jobj [("article", a),
        ("passwordHash", .jstr (bcryptHash pw))]) "article" = some a
    ∧ getField (.jobj [("article", a),
        ("passwordHash", .jstr (bcryptHash pw))]) "passwordHash"
        = some (.jstr (bcryptHash pw))
    ∧ getField (.jobj [("article", a),
        ("passwordHash", .jstr (bcryptHash pw))]) "version" = none
    ∧ getField (.jobj [("article", a),
        ("passwordHash", .jstr (bcryptHash pw))]) "updatedAt" = none
    ∧ (updateArticle bcryptCompare now
        (putObject st (jsToString t ++ ".json")
          (.jobj [("article", a), ("passwordHash", .jstr (bcryptHash pw))]))
        (jsToString t) (some (.jstr pw)) none).1 = .updated
    ∧ ∃ payload2,
        getObject
          (updateArticle bcryptCompare now
            (putObject st (jsToString t ++ ".json")
              (.jobj [("article", a),
                ("passwordHash", .jstr (bcryptHash pw))]))
            (jsToString t) (some (.jstr pw)) none).2
          (jsToString t ++ ".json") = some payload2
        ∧ getField payload2 "version" = some (.jnum 2) := by
  have hredc : createArticle bcryptHash st (some a) (some (.jstr pw))
      = (.created, putObject st (jsToString t ++ ".json")
          (.jobj [("article", a),
            ("passwordHash", .jstr (bcryptHash pw))])) := by
    simp [createArticle, ha, ht, truthyOpt, htt, jsToString, hpw,
      headObject, habs]
  have hg2 : getObject
      (putObject st (jsToString t ++ ".json")
        (.jobj [("article", a), ("passwordHash", .jstr (bcryptHash pw))]))
      (jsToString t ++ ".json")
      = some (.jobj [("article", a),
          ("passwordHash", .jstr (bcryptHash pw))]) :=
    getObject_putObject_self _ _ _
  have hph : getField (.jobj [("article", a),
      ("passwordHash", .jstr (bcryptHash pw))]) "passwordHash"
      = some (.jstr (bcryptHash pw)) := by
    simp [getField, lookupField]
  have hver : getField (.jobj [("article", a),
      ("passwordHash", .jstr (bcryptHash pw))]) "version" = none := by
    simp [getField, lookupField]
  have hart : getField (.jobj [("article", a),
      ("passwordHash", .jstr (bcryptHash pw))]) "article" = some a := by
    simp [getField, lookupField]
  have hredu : updateArticle bcryptCompare now
      (putObject st (jsToString t ++ ".json")
        (.jobj [("article", a), ("passwordHash", .jstr (bcryptHash pw))]))
      (jsToString t) (some (.jstr pw)) none
      = (.updated, putObject
          (putObject st (jsToString t ++ ".json")
            (.jobj [("article", a),
              ("passwordHash", .jstr (bcryptHash pw))]))
          (jsToString t ++ ".json")
          (setField (setField (setField
              (.jobj [("article", a),
                ("passwordHash", .jstr (bcryptHash pw))])
              "article" a) "updatedAt" (.jstr now))
            "version" (.jnum (1 + 1)))) := by
    simp only [updateArticle, jsToString, hg2, hph, hhne, hcmp, hver, hart]
    simp
  obtain ⟨h1, _, _, _⟩ := update_payload_fields
    [("article", a), ("passwordHash", .jstr (bcryptHash pw))] a now (1 + 1)
  refine ⟨hredc, hart, hph, hver, by simp [getField, lookupField], ?_, ?_⟩
  · rw [hredu]
  · rw [hredu]
    exact ⟨_, getObject_putObject_self _ _ _, by rw [h1]; norm_num⟩

/-- Witness for the amended C2 at a concrete create followed by its first
update. -/
theorem create_success_envelope_witness :
    createArticle (fun p => "H" ++ p) []
        (some (.jobj [("title", .jstr "Dragon")])) (some (.jstr "1234"))
      = (.created, putObject [] (jsToString (.jstr "Dragon") ++ ".json")
          (.jobj [("article", .jobj [("title", .jstr "Dragon")]),
            ("passwordHash", .jstr ((fun p => "H" ++ p) "1234"))]))
    ∧ getField (.jobj [("article", .jobj [("title", .jstr "Dragon")]),
        ("passwordHash", .jstr ((fun p => "H" ++ p) "1234"))]) "article"
        = some (.jobj [("title", .jstr "Dragon")])
    ∧ getField (.jobj [("article", .jobj [("title", .jstr "Dragon")]),
        ("passwordHash", .jstr ((fun p => "H" ++ p) "1234"))]) "passwordHash"
        = some (.jstr ((fun p => "H" ++ p) "1234"))
    ∧ getField (.jobj [("article", .jobj [("title", .jstr "Dragon")]),
        ("passwordHash", .jstr ((fun p => "H" ++ p) "1234"))]) "version"
        = none
    ∧ getField (.jobj [("article", .jobj [("title", .jstr "Dragon")]),
        ("passwordHash", .jstr ((fun p => "H" ++ p) "1234"))]) "updatedAt"
        = none
    ∧ (updateArticle (fun p hh => hh == "H" ++ p) "2024-01-01"
        (putObject [] (jsToString (.jstr "Dragon") ++ ".json")
          (.jobj [("article", .jobj [("title", .jstr "Dragon")]),
            ("passwordHash", .jstr ((fun p => "H" ++ p) "1234"))]))
        (jsToString (.jstr "Dragon")) (some (.jstr "1234")) none).1
        = .updated
    ∧ ∃ payload2,
        getObject
          (updateArticle (fun p hh => hh == "H" ++ p) "2024-01-01"
            (putObject [] (jsToString (.jstr "Dragon") ++ ".json")
              (.jobj [("article", .jobj [("title", .jstr "Dragon")]),
                ("passwordHash", .jstr ((fun p => "H" ++ p) "1234"))]))
            (jsToString (.jstr "Dragon")) (some (.jstr "1234")) none).2
          (jsToString (.jstr "Dragon") ++ ".json") = some payload2
        ∧ getField payload2 "version" = some (.jnum 2) :=
  create_success_envelope (fun p => "H" ++ p) (fun p hh => hh == "H" ++ p)
    "2024-01-01" [] (.jobj [("title", .jstr "Dragon")]) (.jstr "Dragon")
    "1234" rfl rfl rfl (by decide) rfl rfl (by decide)

/-- C7: deck deletion enumerates exactly the card keys across every page
of the continuation-token loop, answers `NotFound` when zero card keys
matched, and otherwise reports the count of all enumerated keys and
partitions them into batch-delete calls of at most 1000 keys each — with
every enumerated key in exactly one batch (the concatenation of the
batches is the key list itself) and more than one batch as soon as more
than 1000 keys were enumerated. -/
theorem deck_deletion_enumerates_and_batches (pages : List (List String)) :
    (∀ k, k ∈ listCardKeys pages ↔ k ∈ pages.flatten ∧ isCardKey k = true)
    ∧ (listCardKeys pages = [] → deleteCards pages = (.notFound, []))
    ∧ (listCardKeys pages ≠ [] →
        (deleteCards pages).1 = .deletedCount (listCardKeys pages).length
        ∧ ((deleteCards pages).2).flatten = listCardKeys pages
        ∧ (∀ b ∈ (deleteCards pages).2, b.length ≤ 1000)
        ∧ (1000 < (listCardKeys pages).length →
            1 < (deleteCards pages).2.length)) := by
  refine ⟨mem_listCardKeys pages, ?_, ?_⟩
  · intro hnil
    simp [deleteCards, hnil]
  · intro hne
    have hdel : deleteCards pages
        = (.deletedCount (listCardKeys pages).length,
            chunk1000 (listCardKeys pages)) := by
      simp [deleteCards, deleteKeys, List.isEmpty_iff, hne]
    rw [hdel]
    exact ⟨rfl, chunk1000_flatten _, fun b hb => chunk1000_mem_length_le _ b hb,
      fun hlen => chunk1000_two_batches _ hlen⟩

/-- Witness for C7 on a two-page listing holding two card keys and one
non-card key. -/
theorem deck_deletion_enumerates_and_batches_witness :
    (deleteCards [["a/x.svg", "b.txt"], ["a/y.PNG"]]).1
      = .deletedCount (listCardKeys [["a/x.svg", "b.txt"], ["a/y.PNG"]]).length
    ∧ ((deleteCards [["a/x.svg", "b.txt"], ["a/y.PNG"]]).2).flatten
      = listCardKeys [["a/x.svg", "b.txt"], ["a/y.PNG"]]
    ∧ (∀ b ∈ (deleteCards [["a/x.svg", "b.txt"], ["a/y.PNG"]]).2,
        b.length ≤ 1000)
    ∧ (1000 < (listCardKeys [["a/x.svg", "b.txt"], ["a/y.PNG"]]).length →
        1 < (deleteCards [["a/x.svg", "b.txt"], ["a/y.PNG"]]).2.length) :=
  (deck_deletion_enumerates_and_batches [["a/x.svg", "b.txt"], ["a/y.PNG"]]).2.2
    (by decide)

/-- Specification of `findCardError`: the reported index is the first
offending one. -/
theorem findCardError_spec (cards : List CardUpload) :
    ∀ (start idx : Nat) (c : CardUpload),
    cards[idx]? = some c → validCard c = false →
    (∀ j c', j < idx → cards[j]? = some c' → validCard c' = true) →
    findCardError start cards
      = some ("Falta nombre o imagen en el índice " ++ toString (start + idx)) := by
  induction cards with
  | nil => intro start idx c hc; simp at hc
  | cons c0 rest ih =>
    intro start idx c hc hinv hbefore
    cases idx with
    | zero =>
      obtain rfl : c0 = c := by simpa using hc
      simp [findCardError, hinv]
    | succ idx' =>
      have hc0 : validCard c0 = true :=
        hbefore 0 c0 (Nat.succ_pos idx') (by simp)
      have hrest := ih (start + 1) idx' c (by simpa using hc)
        hinv (fun j c' hj hcj =>
          hbefore (j + 1) c' (Nat.succ_lt_succ hj) (by simpa using hcj))
      rw [findCardError, hc0]
      simpa [Nat.add_assoc, Nat.add_comm 1 idx'] using hrest

/-- C8 counterexample: a batch with a card missing name and both image
encodings fails — the thrown message names index 0 — but the failure is
the generic 500 internal error, not the 400 `BadRequest` the claim
states. -/
theorem upload_invalid_card_is_internal_error :
    (uploadCards (some (.jstr "T")) (some [⟨none, none, none⟩])).1
      = .internalError "Falta nombre o imagen en el índice 0"
    ∧ (uploadCards (some (.jstr "T")) (some [⟨none, none, none⟩])).1
      ≠ .badRequest := ⟨rfl, by decide⟩

/-- C8 (amended): a batch containing a card that is missing its name or
missing both image-encoding fields fails as a whole — never `created` —
with an error message identifying the first offending index; but that
failure is classified as the generic internal error (HTTP 500, caught by
the catch-all handler), not as `BadRequest`: only a missing title or a
non-array `cards` yields `BadRequest`. -/
theorem upload_invalid_card_fails_whole_batch
    (t : JVal) (cards : List CardUpload) (idx : Nat) (c : CardUpload)
    (htt : truthy t = true)
    (hc : cards[idx]? = some c)
    (hinv : validCard c = false)
    (hbefore : ∀ j c', j < idx → cards[j]? = some c' → validCard c' = true) :
    (uploadCards (some t) (some cards)).1
      = .internalError
          ("Falta nombre o imagen en el índice " ++ toString idx)
    ∧ (uploadCards (some t) (some cards)).1 ≠ .badRequest
    ∧ (uploadCards (some t) (some cards)).1 ≠ .created := by
  have hfind := findCardError_spec cards 0 idx c hc hinv hbefore
  rw [Nat.zero_add] at hfind
  have hred : (uploadCards (some t) (some cards)).1
      = .internalError
          ("Falta nombre o imagen en el índice " ++ toString idx) := by
    simp [uploadCards, htt, hfind]
  exact ⟨hred, by rw [hred]; exact fun hh => UploadResult.noConfusion hh,
    by rw [hred]; exact fun hh => UploadResult.noConfusion hh⟩

/-- Witness for the amended C8: a one-card batch whose card lacks a name
and both encodings. -/
theorem upload_invalid_card_fails_whole_batch_witness :
    (uploadCards (some (.jstr "Elves")) (some [⟨none, none, none⟩])).1
      = .internalError
          ("Falta nombre o imagen en el índice " ++ toString 0)
    ∧ (uploadCards (some (.jstr "Elves")) (some [⟨none, none, none⟩])).1
      ≠ .badRequest
    ∧ (uploadCards (some (.jstr "Elves")) (some [⟨none, none, none⟩])).1
      ≠ .created :=
  upload_invalid_card_fails_whole_batch (.jstr "Elves")
    [⟨none, none, none⟩] 0 ⟨none, none, none⟩ rfl rfl rfl
    (fun j _ hj _ => absurd hj (Nat.not_lt_zero j))

/-- A slash-free character list splits to a single segment. -/
theorem splitSlashAux_no_sep (l : List Char) :
    ∀ acc, (∀ ch ∈ l, ch ≠ '/') →
    splitSlashAux l acc = [⟨acc.reverse ++ l⟩] := by
  induction l with
  | nil => intro acc _; simp [splitSlashAux]
  | cons ch rest ih =>
    intro acc h
    have hch : ch ≠ '/' := h ch (.head _)
    rw [splitSlashAux, if_neg hch, ih (ch :: acc) (fun c hc => h c (.tail _ hc))]
    simp

/-- C9 counterexample: a PNG card key keeps its `.png` extension in the
exposed name — only `.svg` is stripped, so the name for `deck/foo.png` is
`foo.png`, not the `foo` the claim requires. -/
theorem png_name_keeps_extension :
    cardEntry "eu" "bucket" "deck/foo.png"
      = some ("deck", "foo.png", cardUrl "eu" "bucket" "deck/foo.png")
    ∧ ("foo.png" : String) ≠ "foo" := ⟨rfl, by decide⟩

/-- C9 (amended): for every card key of the form `deckTitle/fileName`
(non-empty segments, recognized image extension), the deck listing exposes
the card under `deckTitle` with its direct URL and with name
`fileName` minus a case-insensitive `.svg` suffix only: an `.svg` ending
is stripped, while a `.png` ending is kept verbatim in the name.  Keys
with no path separator are skipped (no entry), never an error. -/
theorem deck_listing_card_names (region bucket : String) :
    (∀ key t f, jsSplitSlash key = [t, f] → isCardKey key = true →
      t ≠ "" → f ≠ "" →
      cardEntry region bucket key
        = some (t, stripSvgSuffix f, cardUrl region bucket key)
      ∧ (jsEndsWith (jsToLower f) ".svg" = true →
          stripSvgSuffix f = jsDropRight f 4)
      ∧ (jsEndsWith (jsToLower f) ".svg" = false →
          stripSvgSuffix f = f))
    ∧ (∀ key, (∀ ch ∈ key.data, ch ≠ '/') →
        cardEntry region bucket key = none) := by
  constructor
  · intro key t f hsplit hcard ht hf
    refine ⟨?_, ?_, ?_⟩
    · rw [cardEntry, if_pos hcard, splitKeyFirst, hsplit]
      have ht' : t.isEmpty = false := by
        cases hh : t.isEmpty
        · rfl
        · exact absurd ((String.isEmpty_iff t).mp hh) ht
      have hf' : f.isEmpty = false := by
        cases hh : f.isEmpty
        · rfl
        · exact absurd ((String.isEmpty_iff f).mp hh) hf
      simp [ht', hf']
    · intro hsvg; rw [stripSvgSuffix, if_pos hsvg]
    · intro hsvg; rw [stripSvgSuffix, if_neg (by simp [hsvg])]
  · intro key h
    have hone : jsSplitSlash key = [⟨key.data⟩] := by
      rw [jsSplitSlash, splitSlashAux_no_sep key.data [] h]
      simp
    cases hcard : isCardKey key with
    | false => simp [cardEntry, hcard]
    | true => simp [cardEntry, hcard, splitKeyFirst, hone]

/-- Witness for the amended C9: an uppercase SVG key is stripped, a PNG
key keeps its extension, and a separator-free key is skipped. -/
theorem deck_listing_card_names_witness :
    (cardEntry "eu" "b" "a/x.SVG"
        = some ("a", stripSvgSuffix "x.SVG", cardUrl "eu" "b" "a/x.SVG")
      ∧ (jsEndsWith (jsToLower "x.SVG") ".svg" = true →
          stripSvgSuffix "x.SVG" = jsDropRight "x.SVG" 4)
      ∧ (jsEndsWith (jsToLower "x.SVG") ".svg" = false →
          stripSvgSuffix "x.SVG" = "x.SVG"))
    ∧ cardEntry "eu" "b" "loose.svg" = none :=
  ⟨(deck_listing_card_names "eu" "b").1 "a/x.SVG" "a" "x.SVG"
      rfl rfl (by decide) (by decide),
   (deck_listing_card_names "eu" "b").2 "loose.svg" (by decide)⟩

/-- C10: a card that supplies both `svgBase64` and `pngBase64` is accepted
(the two fields are not mutually exclusive): the presence of `pngBase64`
decides extension `.png` and MIME `image/png`, while `svgBase64 ||
pngBase64` supplies the body, so the object is written under
`title/name.png` with bytes decoded from the svg field. -/
theorem both_encodings_png_key_svg_body
    (title : String) (c : CardUpload) (n s p : JVal)
    (hn : c.name = some n) (htn : truthy n = true)
    (hs : c.svgBase64 = some s) (hts : truthy s = true)
    (hp : c.pngBase64 = some p) (htp : truthy p = true)
    (htl : title.isEmpty = false) :
    validCard c = true
    ∧ cardPut title c
      = ⟨title ++ "/" ++ jsToString n ++ "." ++ "png", "image/png",
          jsToString s⟩
    ∧ uploadCards (some (.jstr title)) (some [c])
      = (.created, [cardPut title c]) := by
  have hor : jsOrOpt c.svgBase64 c.pngBase64 = some s := by
    rw [hs]; simp [jsOrOpt, hts]
  have hpng : truthyOpt c.pngBase64 = true := by rw [hp]; exact htp
  have hvalid : validCard c = true := by
    simp [validCard, hn, truthyOpt, htn, hor, hts]
  refine ⟨hvalid, ?_, ?_⟩
  · simp [cardPut, hor, hpng, hn]
  · simp [uploadCards, truthy, htl, findCardError, hvalid, jsToString]

/-- Witness for C10: both encodings supplied; the key ends `.png`, the
MIME is `image/png`, and the body text is the svg field's. -/
theorem both_encodings_png_key_svg_body_witness :
    (validCard ⟨some (.jstr "elf1"), some (.jstr "U1ZH"), some (.jstr "UE5H")⟩
        = true
      ∧ cardPut "Elves"
          ⟨some (.jstr "elf1"), some (.jstr "U1ZH"), some (.jstr "UE5H")⟩
        = ⟨"Elves" ++ "/" ++ jsToString (.jstr "elf1") ++ "." ++ "png",
            "image/png", jsToString (.jstr "U1ZH")⟩
      ∧ uploadCards (some (.jstr "Elves"))
          (some [⟨some (.jstr "elf1"), some (.jstr "U1ZH"),
            some (.jstr "UE5H")⟩])
        = (.created, [cardPut "Elves"
            ⟨some (.jstr "elf1"), some (.jstr "U1ZH"),
              some (.jstr "UE5H")⟩]))
    ∧ cardPut "Elves"
        ⟨some (.jstr "elf1"), some (.jstr "U1ZH"), some (.jstr "UE5H")⟩
      = ⟨"Elves/elf1.png", "image/png", "U1ZH"⟩ :=
  ⟨both_encodings_png_key_svg_body "Elves"
      ⟨some (.jstr "elf1"), some (.jstr "U1ZH"), some (.jstr "UE5H")⟩
      (.jstr "elf1") (.jstr "U1ZH") (.jstr "UE5H")
      rfl rfl rfl rfl rfl rfl rfl,
   rfl⟩

end HispaniaBack
